import Mathlib

/-!
Verification of the molsturm `System` / `gint.element` Python modules:
a shallow embedding of the element table, the electron-distribution
algorithm and the `System` class, with theorems about their behaviour.

Python `int` is modelled by `Int`; Python floor division `//` by
`Int.fdiv` and `%` (for the positive divisor 2) by `Int.emod`, which
agree with Python semantics.  Functions that may `raise` return
`Except String _`; the in-place mutating method `adjust_electrons`
is modelled by threading the object state and returning the post-state
next to the outcome, so that statements about what happens to the
state on a failure path are faithful to the imperative code.
-/

namespace Molsturm

/-- `Element` record from `gint/element.py`: atomic number and symbol. -/
structure Element where
  atom_number : Int
  symbol : String
deriving DecidableEq, Repr

/-- The static element table `elems` of `gint/element.py` (atomic numbers 1–20). -/
def elems : List Element :=
  [⟨1, "H"⟩, ⟨2, "He"⟩,
   ⟨3, "Li"⟩, ⟨4, "Be"⟩, ⟨5, "B"⟩, ⟨6, "C"⟩, ⟨7, "N"⟩, ⟨8, "O"⟩, ⟨9, "F"⟩, ⟨10, "Ne"⟩,
   ⟨11, "Na"⟩, ⟨12, "Mg"⟩, ⟨13, "Al"⟩, ⟨14, "Si"⟩, ⟨15, "P"⟩, ⟨16, "S"⟩, ⟨17, "Cl"⟩,
   ⟨18, "Ar"⟩, ⟨19, "K"⟩, ⟨20, "Ca"⟩]

/-- `by_atomic_number(num)`: first element of the table with the given atomic
number; `none` models the `IndexError` raised by `[...][0]` on no match. -/
def by_atomic_number (num : Int) : Option Element :=
  (elems.filter fun e => e.atom_number == num).head?

/-- An atom identifier as accepted by `find`: an `int` or a `str` in Python. -/
inductive AtomId where
  | num (n : Int)
  | sym (s : String)
deriving DecidableEq, Repr

/-- `find(atom)` of `gint/element.py`: lookup by atomic number for an `int`
identifier, by symbol for a string; `none` models the `KeyError` raised
when the comprehension matches nothing. -/
def find : AtomId → Option Element
  | .num n => (elems.filter fun e => e.atom_number == n).head?
  | .sym s => (elems.filter fun e => e.symbol == s).head?

/-- The match predicate used by `find` for a given identifier. -/
def atomMatches : AtomId → Element → Prop
  | .num n, e => e.atom_number = n
  | .sym s, e => e.symbol = s

/-- `to_atom_numbers(atoms)` of `molsturm/System.py`: resolve every
identifier through `find`, propagating the `KeyError` of a failed lookup. -/
def to_atom_numbers : List AtomId → Except String (List Int)
  | [] => .ok []
  | a :: rest =>
    match find a with
    | some e => (to_atom_numbers rest).map fun l => e.atom_number :: l
    | none => .error "KeyError"

/-- `distribute_electrons(n_electrons, multiplicity)` of `molsturm/System.py`,
including its two trailing `assert` statements (modelled as a final check
that otherwise yields an `AssertionError`). -/
def distribute_electrons (n_electrons multiplicity : Int) : Except String (Int × Int) :=
  if multiplicity ≤ 0 then
    .error "The multiplicity needs to be a positive number."
  else if n_electrons < 0 then
    .error "The electron count needs to be zero or larger."
  else
    let spin_twice := multiplicity - 1
    if spin_twice % 2 ≠ n_electrons % 2 then
      .error "Only a system with an even number of electrons can have an odd multiplicity and vice versa."
    else if spin_twice > n_electrons then
      .error "A system with this number of electrons cannot have a multiplicity larger than the electron count plus one."
    else
      let n_alpha := (n_electrons - spin_twice).fdiv 2 + spin_twice
      let n_beta := n_electrons - n_alpha
      if 0 ≤ n_alpha ∧ 0 ≤ n_beta ∧ n_alpha - n_beta = spin_twice then
        .ok (n_alpha, n_beta)
      else
        .error "AssertionError"

/-- The state of a `System` object: resolved atomic numbers, coordinates and
the two spin-channel electron counts. -/
structure System where
  atom_numbers : List Int
  coords : List (List ℚ)
  n_alpha : Int
  n_beta : Int
deriving DecidableEq, Repr

/-- `n_atoms` property. -/
def System.n_atoms (s : System) : Nat := s.atom_numbers.length

/-- `multiplicity` property: `n_alpha - n_beta + 1`. -/
def System.multiplicity (s : System) : Int := s.n_alpha - s.n_beta + 1

/-- `is_closed_shell` property: `n_alpha == n_beta`. -/
def System.is_closed_shell (s : System) : Bool := s.n_alpha == s.n_beta

/-- `n_electrons` property: `n_alpha + n_beta`. -/
def System.n_electrons (s : System) : Int := s.n_alpha + s.n_beta

/-- `total_charge` property: nuclear charge minus electron count. -/
def System.total_charge (s : System) : Int := s.atom_numbers.sum - s.n_electrons

/-- `charge` property, an alias of `total_charge`. -/
def System.charge (s : System) : Int := s.total_charge

/-- The `electrons` constructor argument: Python `None`, a single `int`,
or a 2-tuple `(n_alpha, n_beta)`. -/
inductive ElectronSpec where
  | noSpec
  | total (n : Int)
  | pair (n_alpha n_beta : Int)
deriving DecidableEq, Repr

/-- The electron arguments that carry only non-negative counts: absent,
a non-negative total, or a tuple whose `n_beta` entry is non-negative.
Used to state the amended constructor invariant. -/
def ElectronSpec.nonneg : ElectronSpec → Prop
  | .noSpec => True
  | .total n => 0 ≤ n
  | .pair _ b => 0 ≤ b

/-- `System.__init__(atoms, coords, electrons)` of `molsturm/System.py`,
statement for statement: coordinate defaulting for a single atom, the
length check, identifier resolution, the 3-component check (a ragged or
non-3-wide coordinate array fails in numpy / at `shape[1]`), then electron
assignment with the `n_alpha >= n_beta` check on the tuple form, the
floor split on the integer or defaulted total, and the final `assert`. -/
def System.init (atoms : List AtomId) (coords : List (List ℚ))
    (electrons : ElectronSpec) : Except String System :=
  if atoms.length > 0 ∧ coords.length = 0 ∧ atoms.length ≠ 1 then
    .error "coords needs to be specified if more than one atom is in the structure."
  else
    let coords := if atoms.length > 0 ∧ coords.length = 0 then
        ([[0, 0, 0]] : List (List ℚ))
      else coords
    if atoms.length ≠ coords.length then
      .error "Number of atoms and number of coordinates does not agree."
    else
      match to_atom_numbers atoms with
      | .error e => .error e
      | .ok atom_numbers =>
        if coords.length > 0 ∧ ¬ (coords.all fun c => c.length == 3) then
          .error "The coords list needs to have exactly 3 items per coordinate."
        else
          match electrons with
          | .pair a b =>
            if a < b then
              .error "molsturm assumes that n_alpha >= n_beta at many places."
            else
              .ok { atom_numbers := atom_numbers, coords := coords, n_alpha := a, n_beta := b }
          | .noSpec =>
            let e := atom_numbers.sum
            let s : System := { atom_numbers := atom_numbers, coords := coords,
                                n_alpha := e - e.fdiv 2, n_beta := e.fdiv 2 }
            if (e % 2 = 0 ∧ s.multiplicity = 1) ∨ (e % 2 = 1 ∧ s.multiplicity = 2) then
              .ok s
            else
              .error "AssertionError"
          | .total e =>
            let s : System := { atom_numbers := atom_numbers, coords := coords,
                                n_alpha := e - e.fdiv 2, n_beta := e.fdiv 2 }
            if (e % 2 = 0 ∧ s.multiplicity = 1) ∨ (e % 2 = 1 ∧ s.multiplicity = 2) then
              .ok s
            else
              .error "AssertionError"

/-- `System.adjust_electrons(charge, multiplicity, allow_multiplity_change)`:
state-threaded rendering of the mutating method.  The second component is
the object state after the call (unchanged whenever the Python code raises,
since every `raise` precedes the field assignment). -/
def System.adjust_electrons (s : System) (charge : Option Int)
    (multiplicity : Option Int) (allow_multiplity_change : Bool) :
    Except String Unit × System :=
  let n_elec_res : Except String Int :=
    match charge with
    | none => .ok s.n_electrons
    | some c =>
      let nuclear_charge := s.atom_numbers.sum
      let n := nuclear_charge - c
      if n < 0 then
        .error "Charge cannot be more positive than the total nuclear charge"
      else
        .ok n
  match n_elec_res with
  | .error e => (.error e, s)
  | .ok n_elec_count =>
    match multiplicity with
    | some m =>
      match distribute_electrons n_elec_count m with
      | .ok (a, b) => (.ok (), { s with n_alpha := a, n_beta := b })
      | .error e => (.error e, s)
    | none =>
      match distribute_electrons n_elec_count s.multiplicity with
      | .ok (a, b) => (.ok (), { s with n_alpha := a, n_beta := b })
      | .error _ =>
        if allow_multiplity_change = false then
          (.error "Changing the charge in the way requested would require a change in multiplicity as well.", s)
        else
          let m : Int := if n_elec_count % 2 = 0 then 1 else 2
          match distribute_electrons n_elec_count m with
          | .ok (a, b) => (.ok (), { s with n_alpha := a, n_beta := b })
          | .error e => (.error e, s)

/-- The target electron count `n_elec_count` computed at the start of
`adjust_electrons`: nuclear charge minus requested charge when a charge is
given, the current electron count otherwise. -/
def adjustTarget (s : System) (charge : Option Int) : Int :=
  match charge with
  | none => s.n_electrons
  | some c => s.atom_numbers.sum - c

/-! ## Basic arithmetic and list helpers -/

/-- Python floor division `// 2` (`Int.fdiv`) agrees with Euclidean division
by the positive divisor 2. -/
theorem fdiv_two_eq_ediv (a : Int) : a.fdiv 2 = a / 2 := by
  cases a with
  | ofNat m => cases m <;> rfl
  | negSucc m => rfl

/-- An element returned by `head?` belongs to the list. -/
theorem mem_of_head?_eq_some {α : Type} {l : List α} {a : α}
    (h : l.head? = some a) : a ∈ l := by
  cases l with
  | nil => cases h
  | cons x xs =>
    cases h
    exact List.mem_cons_self _ _

/-! ## Properties of `distribute_electrons` -/

/-- On valid input, `distribute_electrons` succeeds and returns exactly the
floor-division split of the source. -/
theorem distribute_electrons_valid (n m : Int) (h1 : 1 ≤ m) (h2 : 0 ≤ n)
    (h3 : (m - 1) % 2 = n % 2) (h4 : m - 1 ≤ n) :
    distribute_electrons n m =
      .ok ((n - (m - 1)) / 2 + (m - 1), n - ((n - (m - 1)) / 2 + (m - 1))) := by
  simp only [distribute_electrons, fdiv_two_eq_ediv]
  rw [if_neg (by omega), if_neg (by omega), if_neg (by omega), if_neg (by omega),
    if_pos (by omega)]

/-- Everything a successful `distribute_electrons` call guarantees about its
result and its input. -/
theorem distribute_electrons_ok_spec (n m a b : Int)
    (h : distribute_electrons n m = .ok (a, b)) :
    a + b = n ∧ a - b = m - 1 ∧ 0 ≤ b ∧ b ≤ a ∧ 1 ≤ m ∧ 0 ≤ n := by
  simp only [distribute_electrons, fdiv_two_eq_ediv] at h
  split at h
  · cases h
  split at h
  · cases h
  split at h
  · cases h
  split at h
  · cases h
  split at h
  · rename_i hm hn hp hr hassert
    injection h with h
    injection h with ha hb
    subst ha
    subst hb
    omega
  · cases h

/-- A `distribute_electrons` result that is not an error is a success. -/
theorem distribute_electrons_isOk_exists (n m : Int)
    (h : (distribute_electrons n m).isOk = true) :
    ∃ a b, distribute_electrons n m = .ok (a, b) := by
  cases hd : distribute_electrons n m with
  | error e => rw [hd] at h; cases h
  | ok p =>
    obtain ⟨a, b⟩ := p
    exact ⟨a, b, rfl⟩

/-- C1: for every pair `(n_electrons, multiplicity)` with `n_electrons ≥ 0`,
`multiplicity ≥ 1`, `multiplicity - 1` of the same parity as `n_electrons`
and `multiplicity - 1 ≤ n_electrons`, `distribute_electrons` succeeds and
returns `(n_alpha, n_beta)` with `n_alpha + n_beta = n_electrons`,
`n_alpha - n_beta = multiplicity - 1` and `n_alpha ≥ n_beta ≥ 0`. -/
theorem C1_distribute_valid_succeeds (n m : Int) (h2 : 0 ≤ n) (h1 : 1 ≤ m)
    (h3 : (m - 1) % 2 = n % 2) (h4 : m - 1 ≤ n) :
    ∃ a b, distribute_electrons n m = .ok (a, b) ∧
      a + b = n ∧ a - b = m - 1 ∧ 0 ≤ b ∧ b ≤ a := by
  refine ⟨_, _, distribute_electrons_valid n m h1 h2 h3 h4, ?_, ?_, ?_, ?_⟩ <;> omega

/-- Witness for C1 at the concrete input `(4, 3)`. -/
theorem C1_witness :
    ∃ a b, distribute_electrons 4 3 = .ok (a, b) ∧
      a + b = 4 ∧ a - b = 3 - 1 ∧ 0 ≤ b ∧ b ≤ a :=
  C1_distribute_valid_succeeds 4 3 (by decide) (by decide) (by decide) (by decide)

/-- C2: `distribute_electrons` fails exactly when `multiplicity ≤ 0`, or
`n_electrons < 0`, or `multiplicity - 1` and `n_electrons` differ in
parity, or `multiplicity - 1 > n_electrons`; in particular the calls with
multiplicity 0, with `n_electrons = -1`, `(4, 2)` and `(2, 5)` all fail. -/
theorem C2_distribute_fails_iff :
    (∀ n m : Int, (distribute_electrons n m).isOk = false ↔
        (m ≤ 0 ∨ n < 0 ∨ ¬ (m - 1) % 2 = n % 2 ∨ m - 1 > n)) ∧
    (distribute_electrons 4 0).isOk = false ∧
    (distribute_electrons (-1) 1).isOk = false ∧
    (distribute_electrons 4 2).isOk = false ∧
    (distribute_electrons 2 5).isOk = false := by
  refine ⟨?_, by decide, by decide, by decide, by decide⟩
  intro n m
  constructor
  · intro h
    by_contra hc
    push_neg at hc
    have hv := distribute_electrons_valid n m (by omega) (by omega) (by tauto) (by omega)
    rw [hv] at h
    cases h
  · intro hcond
    cases hok : (distribute_electrons n m).isOk with
    | false => rfl
    | true =>
      obtain ⟨a, b, hab⟩ := distribute_electrons_isOk_exists n m hok
      have hs := distribute_electrons_ok_spec n m a b hab
      rcases hcond with h | h | h | h <;> omega

/-! ## Properties of the element table and identifier resolution -/

/-- A successful `find` returns an entry of the table. -/
theorem find_mem_elems (a : AtomId) (e : Element) (h : find a = some e) :
    e ∈ elems := by
  cases a with
  | num n => exact List.mem_of_mem_filter (mem_of_head?_eq_some h)
  | sym s => exact List.mem_of_mem_filter (mem_of_head?_eq_some h)

/-- Every atomic number in the table lies between 1 and 20. -/
theorem elems_atom_number_bounds (e : Element) (h : e ∈ elems) :
    1 ≤ e.atom_number ∧ e.atom_number ≤ 20 := by
  fin_cases h <;> decide

/-- A successful `to_atom_numbers` preserves the length of the atom list. -/
theorem to_atom_numbers_length (atoms : List AtomId) (l : List Int)
    (h : to_atom_numbers atoms = .ok l) : l.length = atoms.length := by
  induction atoms generalizing l with
  | nil =>
    simp only [to_atom_numbers] at h
    cases h
    rfl
  | cons a rest ih =>
    simp only [to_atom_numbers] at h
    cases hf : find a with
    | none => rw [hf] at h; cases h
    | some e =>
      rw [hf] at h
      cases hr : to_atom_numbers rest with
      | error msg => rw [hr] at h; cases h
      | ok l' =>
        rw [hr] at h
        simp only [Except.map] at h
        cases h
        simp [ih l' hr]

/-- Every atomic number produced by `to_atom_numbers` is positive. -/
theorem to_atom_numbers_pos (atoms : List AtomId) (l : List Int)
    (h : to_atom_numbers atoms = .ok l) : ∀ x ∈ l, 1 ≤ x := by
  induction atoms generalizing l with
  | nil =>
    simp only [to_atom_numbers] at h
    cases h
    intro x hx
    cases hx
  | cons a rest ih =>
    simp only [to_atom_numbers] at h
    cases hf : find a with
    | none => rw [hf] at h; cases h
    | some e =>
      rw [hf] at h
      cases hr : to_atom_numbers rest with
      | error msg => rw [hr] at h; cases h
      | ok l' =>
        rw [hr] at h
        simp only [Except.map] at h
        cases h
        intro x hx
        rcases List.mem_cons.1 hx with hx | hx
        · subst hx
          exact (elems_atom_number_bounds e (find_mem_elems a e hf)).1
        · exact ih l' hr x hx

/-- The sum of the resolved atomic numbers is non-negative. -/
theorem to_atom_numbers_sum_nonneg (atoms : List AtomId) (l : List Int)
    (h : to_atom_numbers atoms = .ok l) : 0 ≤ l.sum :=
  List.sum_nonneg fun x hx => le_trans (by omega) (to_atom_numbers_pos atoms l h x hx)

/-! ## Inversion lemmas for `System.init` -/

theorem init_pair_ok_spec (atoms : List AtomId) (coords : List (List ℚ))
    (a b : Int) (s : System)
    (h : System.init atoms coords (.pair a b) = .ok s) :
    to_atom_numbers atoms = .ok s.atom_numbers ∧
    s.atom_numbers.length = s.coords.length ∧
    s.n_alpha = a ∧ s.n_beta = b ∧ ¬ a < b := by
  simp only [System.init] at h
  by_cases h1 : atoms.length > 0 ∧ coords.length = 0 ∧ atoms.length ≠ 1
  · rw [if_pos h1] at h; cases h
  rw [if_neg h1] at h
  by_cases h2 : atoms.length ≠ (if atoms.length > 0 ∧ coords.length = 0 then ([[0,0,0]] : List (List ℚ)) else coords).length
  · rw [if_pos h2] at h; cases h
  rw [if_neg h2] at h
  cases heq : to_atom_numbers atoms with
  | error e => rw [heq] at h; cases h
  | ok atom_numbers =>
    rw [heq] at h
    dsimp only at h
    by_cases h3 : (if atoms.length > 0 ∧ coords.length = 0 then ([[0,0,0]] : List (List ℚ)) else coords).length > 0 ∧ ¬((if atoms.length > 0 ∧ coords.length = 0 then ([[0,0,0]] : List (List ℚ)) else coords).all fun c => c.length == 3) = true
    · rw [if_pos h3] at h; cases h
    rw [if_neg h3] at h
    by_cases h4 : a < b
    · rw [if_pos h4] at h; cases h
    rw [if_neg h4] at h
    cases h
    push_neg at h2
    refine ⟨rfl, ?_, rfl, rfl, h4⟩
    show atom_numbers.length = (if atoms.length > 0 ∧ coords.length = 0 then ([[0,0,0]] : List (List ℚ)) else coords).length
    rw [to_atom_numbers_length atoms atom_numbers heq]
    exact h2


theorem init_total_ok_spec (atoms : List AtomId) (coords : List (List ℚ))
    (e : Int) (s : System)
    (h : System.init atoms coords (.total e) = .ok s) :
    to_atom_numbers atoms = .ok s.atom_numbers ∧
    s.atom_numbers.length = s.coords.length ∧
    s.n_beta = e / 2 ∧ s.n_alpha = e - e / 2 := by
  simp only [System.init, fdiv_two_eq_ediv] at h
  set cs : List (List ℚ) := (if atoms.length > 0 ∧ coords.length = 0 then ([[0,0,0]] : List (List ℚ)) else coords) with hcs
  by_cases h1 : atoms.length > 0 ∧ coords.length = 0 ∧ atoms.length ≠ 1
  · rw [if_pos h1] at h; cases h
  rw [if_neg h1] at h
  by_cases h2 : atoms.length ≠ cs.length
  · rw [if_pos h2] at h; cases h
  rw [if_neg h2] at h
  cases heq : to_atom_numbers atoms with
  | error msg => rw [heq] at h; cases h
  | ok atom_numbers =>
    rw [heq] at h
    dsimp only at h
    by_cases h3 : cs.length > 0 ∧ ¬(cs.all fun c => c.length == 3) = true
    · rw [if_pos h3] at h; cases h
    rw [if_neg h3] at h
    split at h
    · cases h
      push_neg at h2
      refine ⟨rfl, ?_, rfl, rfl⟩
      show atom_numbers.length = cs.length
      rw [to_atom_numbers_length atoms atom_numbers heq]
      exact h2
    · cases h

theorem init_noSpec_ok_spec (atoms : List AtomId) (coords : List (List ℚ))
    (s : System)
    (h : System.init atoms coords .noSpec = .ok s) :
    to_atom_numbers atoms = .ok s.atom_numbers ∧
    s.atom_numbers.length = s.coords.length ∧
    s.n_beta = s.atom_numbers.sum / 2 ∧
    s.n_alpha = s.atom_numbers.sum - s.atom_numbers.sum / 2 := by
  simp only [System.init, fdiv_two_eq_ediv] at h
  set cs : List (List ℚ) := (if atoms.length > 0 ∧ coords.length = 0 then ([[0,0,0]] : List (List ℚ)) else coords) with hcs
  by_cases h1 : atoms.length > 0 ∧ coords.length = 0 ∧ atoms.length ≠ 1
  · rw [if_pos h1] at h; cases h
  rw [if_neg h1] at h
  by_cases h2 : atoms.length ≠ cs.length
  · rw [if_pos h2] at h; cases h
  rw [if_neg h2] at h
  cases heq : to_atom_numbers atoms with
  | error msg => rw [heq] at h; cases h
  | ok atom_numbers =>
    rw [heq] at h
    dsimp only at h
    by_cases h3 : cs.length > 0 ∧ ¬(cs.all fun c => c.length == 3) = true
    · rw [if_pos h3] at h; cases h
    rw [if_neg h3] at h
    split at h
    · cases h
      push_neg at h2
      refine ⟨rfl, ?_, rfl, rfl⟩
      show atom_numbers.length = cs.length
      rw [to_atom_numbers_length atoms atom_numbers heq]
      exact h2
    · cases h

/-! ## Case analysis for `adjust_electrons` -/

/-- Every run of `adjust_electrons` either raises with the state untouched,
or succeeds, replacing `n_alpha` and `n_beta` together by the result of a
successful `distribute_electrons` call and leaving every other field
unchanged. -/
theorem adjust_electrons_cases (s : System) (charge multiplicity : Option Int)
    (allow : Bool) :
    (∃ msg, s.adjust_electrons charge multiplicity allow = (.error msg, s)) ∨
    (∃ a b n mult, distribute_electrons n mult = .ok (a, b) ∧
        s.adjust_electrons charge multiplicity allow =
          (.ok (), { s with n_alpha := a, n_beta := b })) := by
  simp only [System.adjust_electrons]
  split
  · exact Or.inl ⟨_, rfl⟩
  rename_i n_elec_count hn
  split
  · rename_i m
    split
    · rename_i p a b heq
      exact Or.inr ⟨a, b, n_elec_count, m, heq, rfl⟩
    · exact Or.inl ⟨_, rfl⟩
  · split
    · rename_i p a b heq
      exact Or.inr ⟨a, b, n_elec_count, s.multiplicity, heq, rfl⟩
    rename_i hfail
    split
    · exact Or.inl ⟨_, rfl⟩
    split
    · rename_i p a b heq
      exact Or.inr ⟨a, b, n_elec_count, _, heq, rfl⟩
    · exact Or.inl ⟨_, rfl⟩

/-! ## C3: constructor and adjust invariants -/

/-- C3 counterexample: constructing with the electron tuple `(-1, -2)`
passes the `n_alpha < n_beta` check and succeeds, yet leaves
`n_beta = -2 < 0`, violating the claimed invariant `n_alpha ≥ n_beta ≥ 0`. -/
theorem C3_counterexample :
    System.init [] [] (ElectronSpec.pair (-1) (-2)) =
      .ok { atom_numbers := [], coords := [], n_alpha := -1, n_beta := -2 } ∧
    ¬ (0 ≤ ({ atom_numbers := [], coords := [], n_alpha := -1, n_beta := -2 : System }).n_beta) := by
  constructor
  · rfl
  · decide

/-- C3 (amended): after a successful construction `len(atoms) = len(coords)`
and `n_alpha ≥ n_beta` always hold, and `n_beta ≥ 0` holds additionally
whenever the electrons argument carries no negative count (absent, a
non-negative total, or a pair with `n_beta ≥ 0`); after any successful
`adjust_electrons` call the full invariant `n_alpha ≥ n_beta ≥ 0` holds
and the atom and coordinate lists are unchanged. -/
theorem C3_invariants_amended :
    (∀ atoms coords electrons s, System.init atoms coords electrons = .ok s →
        s.atom_numbers.length = s.coords.length ∧ s.n_beta ≤ s.n_alpha ∧
        (electrons.nonneg → 0 ≤ s.n_beta)) ∧
    (∀ (s : System) (charge multiplicity : Option Int) (allow : Bool) (s' : System),
        s.adjust_electrons charge multiplicity allow = (.ok (), s') →
        s'.n_beta ≤ s'.n_alpha ∧ 0 ≤ s'.n_beta ∧
        s'.atom_numbers = s.atom_numbers ∧ s'.coords = s.coords) := by
  constructor
  · intro atoms coords electrons s h
    cases electrons with
    | pair a b =>
      obtain ⟨-, hlen, ha, hb, hab⟩ := init_pair_ok_spec atoms coords a b s h
      exact ⟨hlen, by omega, fun hn => by
        simp only [ElectronSpec.nonneg] at hn
        omega⟩
    | total e =>
      obtain ⟨-, hlen, hb, ha⟩ := init_total_ok_spec atoms coords e s h
      exact ⟨hlen, by omega, fun hn => by
        simp only [ElectronSpec.nonneg] at hn
        omega⟩
    | noSpec =>
      obtain ⟨hatoms, hlen, hb, ha⟩ := init_noSpec_ok_spec atoms coords s h
      have hsum : 0 ≤ s.atom_numbers.sum := to_atom_numbers_sum_nonneg atoms _ hatoms
      exact ⟨hlen, by omega, fun _ => by omega⟩
  · intro s charge multiplicity allow s' h
    rcases adjust_electrons_cases s charge multiplicity allow with ⟨msg, heq⟩ | ⟨a, b, n, mult, hd, heq⟩
    · rw [heq] at h
      cases h
    · rw [heq] at h
      obtain ⟨-, h2⟩ := Prod.mk.injEq .. ▸ h
      have hspec := distribute_electrons_ok_spec n mult a b hd
      cases h
      refine ⟨by simp; omega, by simp; omega, rfl, rfl⟩

/-- Witness for the amended C3 at a concrete construction and adjust call. -/
theorem C3_witness :
    (({ atom_numbers := [1], coords := [[0, 0, 0]], n_alpha := 1, n_beta := 0 : System }).atom_numbers.length =
      ({ atom_numbers := [1], coords := [[0, 0, 0]], n_alpha := 1, n_beta := 0 : System }).coords.length ∧
     ({ atom_numbers := [1], coords := [[0, 0, 0]], n_alpha := 1, n_beta := 0 : System }).n_beta ≤
      ({ atom_numbers := [1], coords := [[0, 0, 0]], n_alpha := 1, n_beta := 0 : System }).n_alpha ∧
     (ElectronSpec.noSpec.nonneg →
      0 ≤ ({ atom_numbers := [1], coords := [[0, 0, 0]], n_alpha := 1, n_beta := 0 : System }).n_beta)) :=
  C3_invariants_amended.1 [.sym "H"] [] .noSpec
    { atom_numbers := [1], coords := [[0, 0, 0]], n_alpha := 1, n_beta := 0 } rfl

/-! ## C4: target electron count and multiplicity fallback in `adjust_electrons` -/

/-- C4: the target electron count is the total nuclear charge minus the
requested charge when a charge is given (failing when negative) and the
current electron count otherwise; with the multiplicity omitted the current
multiplicity is tried first, and on its failure the call either fails with
the distinct multiplicity-change error (when the change is disallowed) or
redistributes with multiplicity 1 for an even and 2 for an odd target. -/
theorem C4_adjust_target_and_fallback :
    (∀ (s : System) (c : Int) (m : Option Int) (allow : Bool),
        s.atom_numbers.sum - c < 0 →
        s.adjust_electrons (some c) m allow =
          (.error "Charge cannot be more positive than the total nuclear charge", s)) ∧
    (∀ (s : System) (charge : Option Int) (allow : Bool) (a b : Int),
        (∀ c, charge = some c → 0 ≤ s.atom_numbers.sum - c) →
        distribute_electrons (adjustTarget s charge) s.multiplicity = .ok (a, b) →
        s.adjust_electrons charge none allow =
          (.ok (), { s with n_alpha := a, n_beta := b })) ∧
    (∀ (s : System) (charge : Option Int) (msg : String),
        (∀ c, charge = some c → 0 ≤ s.atom_numbers.sum - c) →
        distribute_electrons (adjustTarget s charge) s.multiplicity = .error msg →
        s.adjust_electrons charge none false =
          (.error "Changing the charge in the way requested would require a change in multiplicity as well.", s)) ∧
    (∀ (s : System) (charge : Option Int) (msg : String),
        (∀ c, charge = some c → 0 ≤ s.atom_numbers.sum - c) →
        distribute_electrons (adjustTarget s charge) s.multiplicity = .error msg →
        s.adjust_electrons charge none true =
          (match distribute_electrons (adjustTarget s charge)
              (if adjustTarget s charge % 2 = 0 then 1 else 2) with
           | .ok p => (.ok (), { s with n_alpha := p.1, n_beta := p.2 })
           | .error e => (.error e, s))) := by
  refine ⟨?_, ?_, ?_, ?_⟩
  · intro s c m allow h
    simp only [System.adjust_electrons, if_pos h]
  · intro s charge allow a b hok hd
    cases charge with
    | none =>
      simp only [adjustTarget] at hd
      simp only [System.adjust_electrons, hd]
    | some c =>
      have h0 : ¬ (s.atom_numbers.sum - c < 0) := by
        have := hok c rfl
        omega
      simp only [adjustTarget] at hd
      simp only [System.adjust_electrons, if_neg h0, hd]
  · intro s charge msg hok hd
    cases charge with
    | none =>
      simp only [adjustTarget] at hd
      simp only [System.adjust_electrons, hd]
      rw [if_pos trivial]
    | some c =>
      have h0 : ¬ (s.atom_numbers.sum - c < 0) := by
        have := hok c rfl
        omega
      simp only [adjustTarget] at hd
      simp only [System.adjust_electrons, if_neg h0, hd]
      rw [if_pos trivial]
  · intro s charge msg hok hd
    cases charge with
    | none =>
      simp only [adjustTarget] at hd ⊢
      simp only [System.adjust_electrons, hd]
      rw [if_neg (by simp)]
      cases hdf : distribute_electrons s.n_electrons (if s.n_electrons % 2 = 0 then 1 else 2) with
      | ok p =>
        obtain ⟨a, b⟩ := p
        rfl
      | error e => rfl
    | some c =>
      have h0 : ¬ (s.atom_numbers.sum - c < 0) := by
        have := hok c rfl
        omega
      simp only [adjustTarget] at hd ⊢
      simp only [System.adjust_electrons, if_neg h0, hd]
      rw [if_neg (by simp)]
      cases hdf : distribute_electrons (s.atom_numbers.sum - c)
          (if (s.atom_numbers.sum - c) % 2 = 0 then 1 else 2) with
      | ok p =>
        obtain ⟨a, b⟩ := p
        rfl
      | error e => rfl

/-- Witness for C4 on a one-oxygen system: removing one electron with the
multiplicity retained is impossible by parity, so with the change allowed
the call falls back to multiplicity 2. -/
theorem C4_witness :
    ({ atom_numbers := [8], coords := [[0, 0, 0]], n_alpha := 4, n_beta := 4 : System
      }).adjust_electrons (some 1) none true =
      (match distribute_electrons
          (adjustTarget { atom_numbers := [8], coords := [[0, 0, 0]], n_alpha := 4, n_beta := 4 } (some 1))
          (if adjustTarget { atom_numbers := [8], coords := [[0, 0, 0]], n_alpha := 4, n_beta := 4 } (some 1) % 2 = 0
            then 1 else 2) with
       | .ok p => (.ok (), { atom_numbers := [8], coords := [[0, 0, 0]], n_alpha := p.1, n_beta := p.2 })
       | .error e => (.error e, { atom_numbers := [8], coords := [[0, 0, 0]], n_alpha := 4, n_beta := 4 })) :=
  C4_adjust_target_and_fallback.2.2.2
    { atom_numbers := [8], coords := [[0, 0, 0]], n_alpha := 4, n_beta := 4 } (some 1)
    "Only a system with an even number of electrons can have an odd multiplicity and vice versa."
    (by intro c hc; cases hc; decide) (by rfl)

/-! ## C5: strong exception safety of `adjust_electrons` -/

/-- C5: `adjust_electrons` is atomic: on every failure path the state is
exactly the state before the call, and on success `n_alpha`/`n_beta` are
replaced together (by a successful `distribute_electrons` result) with all
other fields unchanged. -/
theorem C5_adjust_atomicity :
    (∀ (s : System) (charge multiplicity : Option Int) (allow : Bool) (msg : String),
        (s.adjust_electrons charge multiplicity allow).1 = .error msg →
        (s.adjust_electrons charge multiplicity allow).2 = s) ∧
    (∀ (s : System) (charge multiplicity : Option Int) (allow : Bool),
        (s.adjust_electrons charge multiplicity allow).1 = .ok () →
        ∃ a b n mult, distribute_electrons n mult = .ok (a, b) ∧
          (s.adjust_electrons charge multiplicity allow).2 =
            { s with n_alpha := a, n_beta := b }) := by
  constructor
  · intro s charge multiplicity allow msg h
    rcases adjust_electrons_cases s charge multiplicity allow with ⟨m, heq⟩ | ⟨a, b, n, mult, hd, heq⟩
    · rw [heq]
    · rw [heq] at h
      cases h
  · intro s charge multiplicity allow h
    rcases adjust_electrons_cases s charge multiplicity allow with ⟨m, heq⟩ | ⟨a, b, n, mult, hd, heq⟩
    · rw [heq] at h
      cases h
    · exact ⟨a, b, n, mult, hd, by rw [heq]⟩

/-- Witness for C5: an `adjust` call whose requested charge exceeds the
nuclear charge leaves the state untouched. -/
theorem C5_witness :
    (({ atom_numbers := [1], coords := [[0, 0, 0]], n_alpha := 1, n_beta := 0 : System
       }).adjust_electrons (some 2) none true).2 =
      { atom_numbers := [1], coords := [[0, 0, 0]], n_alpha := 1, n_beta := 0 } :=
  C5_adjust_atomicity.1 { atom_numbers := [1], coords := [[0, 0, 0]], n_alpha := 1, n_beta := 0 }
    (some 2) none true "Charge cannot be more positive than the total nuclear charge" rfl

/-! ## C6: default electron count and split at construction -/

/-- C6: with `electrons` absent the electron count defaults to the sum of
the atomic numbers, split as `n_beta = total // 2`, `n_alpha = total - n_beta`,
giving a neutral system of multiplicity 1 (even total) or 2 (odd total);
concretely `atoms=["H"]` gives `(n_alpha, n_beta) = (1, 0)`, multiplicity 2
and total charge 0, and `atoms=["O"]` gives atomic number 8, a (4, 4) split,
multiplicity 1 and a closed shell. -/
theorem C6_default_electrons :
    (∀ (atoms : List AtomId) (coords : List (List ℚ)) (s : System),
        System.init atoms coords .noSpec = .ok s →
        s.n_beta = s.atom_numbers.sum.fdiv 2 ∧
        s.n_alpha = s.atom_numbers.sum - s.n_beta ∧
        s.n_electrons = s.atom_numbers.sum ∧
        s.total_charge = 0 ∧
        s.multiplicity = (if s.atom_numbers.sum % 2 = 0 then 1 else 2)) ∧
    (System.init [.sym "H"] [] .noSpec =
        .ok { atom_numbers := [1], coords := [[0, 0, 0]], n_alpha := 1, n_beta := 0 } ∧
      ({ atom_numbers := [1], coords := [[0, 0, 0]], n_alpha := 1, n_beta := 0 : System }).multiplicity = 2 ∧
      ({ atom_numbers := [1], coords := [[0, 0, 0]], n_alpha := 1, n_beta := 0 : System }).total_charge = 0) ∧
    (System.init [.sym "O"] [] .noSpec =
        .ok { atom_numbers := [8], coords := [[0, 0, 0]], n_alpha := 4, n_beta := 4 } ∧
      ({ atom_numbers := [8], coords := [[0, 0, 0]], n_alpha := 4, n_beta := 4 : System }).multiplicity = 1 ∧
      ({ atom_numbers := [8], coords := [[0, 0, 0]], n_alpha := 4, n_beta := 4 : System }).is_closed_shell = true) := by
  refine ⟨?_, ⟨rfl, by decide, by decide⟩, ⟨rfl, by decide, by decide⟩⟩
  intro atoms coords s h
  obtain ⟨hatoms, hlen, hb, ha⟩ := init_noSpec_ok_spec atoms coords s h
  rw [fdiv_two_eq_ediv]
  refine ⟨hb, by omega, ?_, ?_, ?_⟩
  · rw [System.n_electrons]
    omega
  · rw [System.total_charge, System.n_electrons]
    omega
  · rw [System.multiplicity]
    split <;> omega

/-- Witness for C6 instantiating the universal part at the hydrogen system. -/
theorem C6_witness :
    ({ atom_numbers := [1], coords := [[0, 0, 0]], n_alpha := 1, n_beta := 0 : System }).n_beta =
      ({ atom_numbers := [1], coords := [[0, 0, 0]], n_alpha := 1, n_beta := 0 : System
        }).atom_numbers.sum.fdiv 2 ∧
    ({ atom_numbers := [1], coords := [[0, 0, 0]], n_alpha := 1, n_beta := 0 : System }).n_alpha =
      ({ atom_numbers := [1], coords := [[0, 0, 0]], n_alpha := 1, n_beta := 0 : System }).atom_numbers.sum -
        ({ atom_numbers := [1], coords := [[0, 0, 0]], n_alpha := 1, n_beta := 0 : System }).n_beta ∧
    ({ atom_numbers := [1], coords := [[0, 0, 0]], n_alpha := 1, n_beta := 0 : System }).n_electrons =
      ({ atom_numbers := [1], coords := [[0, 0, 0]], n_alpha := 1, n_beta := 0 : System }).atom_numbers.sum ∧
    ({ atom_numbers := [1], coords := [[0, 0, 0]], n_alpha := 1, n_beta := 0 : System }).total_charge = 0 ∧
    ({ atom_numbers := [1], coords := [[0, 0, 0]], n_alpha := 1, n_beta := 0 : System }).multiplicity =
      (if ({ atom_numbers := [1], coords := [[0, 0, 0]], n_alpha := 1, n_beta := 0 : System
            }).atom_numbers.sum % 2 = 0 then 1 else 2) :=
  C6_default_electrons.1 [.sym "H"] []
    { atom_numbers := [1], coords := [[0, 0, 0]], n_alpha := 1, n_beta := 0 } rfl

/-! ## C7: element lookup -/

/-- C7: `find("He")` and `find(2)` return the identical element; `find` fails
exactly on identifiers matching no table entry; `by_atomic_number n` returns
an element of the table with atomic number `n` and fails exactly when none
exists; and the table ships exactly the atomic numbers 1 through 20. -/
theorem C7_element_lookup :
    (find (.sym "He") = some ⟨2, "He"⟩ ∧ find (.num 2) = some ⟨2, "He"⟩) ∧
    (∀ a : AtomId, find a = none ↔ ¬ ∃ e ∈ elems, atomMatches a e) ∧
    (∀ (n : Int) (e : Element), by_atomic_number n = some e → e.atom_number = n ∧ e ∈ elems) ∧
    (∀ n : Int, by_atomic_number n = none ↔ ¬ ∃ e ∈ elems, e.atom_number = n) ∧
    (∀ n : Int, (∃ e ∈ elems, e.atom_number = n) ↔ 1 ≤ n ∧ n ≤ 20) := by
  refine ⟨⟨by decide, by decide⟩, ?_, ?_, ?_, ?_⟩
  · intro a
    cases a with
    | num n =>
      simp [find, List.head?_eq_none_iff, List.filter_eq_nil_iff, atomMatches, beq_iff_eq]
    | sym s =>
      simp [find, List.head?_eq_none_iff, List.filter_eq_nil_iff, atomMatches, beq_iff_eq]
  · intro n e h
    have hmem := mem_of_head?_eq_some h
    rw [List.mem_filter] at hmem
    exact ⟨beq_iff_eq.1 hmem.2, hmem.1⟩
  · intro n
    simp [by_atomic_number, List.head?_eq_none_iff, List.filter_eq_nil_iff, beq_iff_eq]
  · intro n
    constructor
    · rintro ⟨e, he, rfl⟩
      exact elems_atom_number_bounds e he
    · rintro ⟨h1, h2⟩
      interval_cases n <;> decide

/-- Witness for C7: `by_atomic_number 2` returns the helium entry. -/
theorem C7_witness :
    (⟨2, "He"⟩ : Element).atom_number = 2 ∧ (⟨2, "He"⟩ : Element) ∈ elems :=
  C7_element_lookup.2.2.1 2 ⟨2, "He"⟩ rfl

/-! ## C8: coordinate handling at construction -/

/-- C8: with a single atom and no coordinates the constructor behaves as if
the origin had been passed; with more than one atom and no coordinates it
fails; with non-empty coordinates of a length different from the atom list
it fails; and it fails whenever some supplied coordinate does not have
exactly 3 components. -/
theorem C8_coords_handling :
    (∀ (a : AtomId) (electrons : ElectronSpec),
        System.init [a] [] electrons = System.init [a] [[0, 0, 0]] electrons) ∧
    (∀ (atoms : List AtomId) (electrons : ElectronSpec), 1 < atoms.length →
        System.init atoms [] electrons =
          .error "coords needs to be specified if more than one atom is in the structure.") ∧
    (∀ (atoms : List AtomId) (coords : List (List ℚ)) (electrons : ElectronSpec),
        coords ≠ [] → atoms.length ≠ coords.length →
        System.init atoms coords electrons =
          .error "Number of atoms and number of coordinates does not agree.") ∧
    (∀ (atoms : List AtomId) (coords : List (List ℚ)) (electrons : ElectronSpec),
        (∃ c ∈ coords, c.length ≠ 3) →
        ∃ msg, System.init atoms coords electrons = .error msg) := by
  refine ⟨?_, ?_, ?_, ?_⟩
  · intro a electrons
    simp [System.init]
  · intro atoms electrons h
    rw [System.init, if_pos ⟨by omega, rfl, by omega⟩]
  · intro atoms coords electrons hne hmm
    have hc : coords.length ≠ 0 := fun h => hne (List.length_eq_zero.1 h)
    rw [System.init, if_neg (by tauto)]
    have hite : (if atoms.length > 0 ∧ coords.length = 0 then ([[0, 0, 0]] : List (List ℚ)) else coords) = coords := by
      rw [if_neg (by tauto)]
    rw [hite, if_pos hmm]
  · intro atoms coords electrons hbad
    obtain ⟨c, hc, h3⟩ := hbad
    have hne : coords ≠ [] := by
      intro h
      subst h
      cases hc
    by_cases hmm : atoms.length = coords.length
    · have hc0 : coords.length ≠ 0 := fun h => hne (List.length_eq_zero.1 h)
      rw [System.init, if_neg (by tauto)]
      have hite : (if atoms.length > 0 ∧ coords.length = 0 then ([[0, 0, 0]] : List (List ℚ)) else coords) = coords := by
        rw [if_neg (by tauto)]
      rw [hite, if_neg (by omega)]
      cases heq : to_atom_numbers atoms with
      | error msg => exact ⟨msg, rfl⟩
      | ok atom_numbers =>
        dsimp only
        have hall : ¬ (coords.all fun c => c.length == 3) = true := by
          intro hall
          rw [List.all_eq_true] at hall
          have := hall c hc
          simp at this
          exact h3 this
        rw [if_pos ⟨by omega, hall⟩]
        exact ⟨_, rfl⟩
    · have hc0 : coords.length ≠ 0 := fun h => hne (List.length_eq_zero.1 h)
      rw [System.init, if_neg (by tauto)]
      have hite : (if atoms.length > 0 ∧ coords.length = 0 then ([[0, 0, 0]] : List (List ℚ)) else coords) = coords := by
        rw [if_neg (by tauto)]
      rw [hite, if_pos hmm]
      exact ⟨_, rfl⟩

/-- Witness for C8: two atoms without coordinates are rejected. -/
theorem C8_witness :
    System.init [.sym "H", .sym "H"] [] .noSpec =
      .error "coords needs to be specified if more than one atom is in the structure." :=
  C8_coords_handling.2.1 [.sym "H", .sym "H"] .noSpec (by decide)

/-! ## C9: a no-argument adjust call is the identity -/

/-- C9: on any system with `n_alpha ≥ n_beta ≥ 0`, calling `adjust_electrons`
with charge and multiplicity omitted (and the multiplicity change allowed,
its default) succeeds and leaves the state exactly as it was: the current
split is what `distribute_electrons` returns for the current electron count
and multiplicity. -/
theorem C9_adjust_identity (s : System) (h0 : 0 ≤ s.n_beta) (h1 : s.n_beta ≤ s.n_alpha) :
    s.adjust_electrons none none true = (.ok (), s) := by
  have hd : distribute_electrons s.n_electrons s.multiplicity = .ok (s.n_alpha, s.n_beta) := by
    have hv := distribute_electrons_valid s.n_electrons s.multiplicity
      (by rw [System.multiplicity]; omega)
      (by rw [System.n_electrons]; omega)
      (by rw [System.multiplicity, System.n_electrons]; omega)
      (by rw [System.multiplicity, System.n_electrons]; omega)
    rw [hv]
    rw [System.multiplicity, System.n_electrons]
    congr 1
    have : s.n_alpha + s.n_beta - (s.n_alpha - s.n_beta + 1 - 1) = 2 * s.n_beta := by ring
    rw [this]
    rw [Prod.mk.injEq]
    constructor <;> omega
  simp only [System.adjust_electrons, hd]

/-- Witness for C9 at a concrete open-shell system. -/
theorem C9_witness :
    ({ atom_numbers := [3], coords := [[0, 0, 0]], n_alpha := 2, n_beta := 1 : System
      }).adjust_electrons none none true =
      (.ok (), { atom_numbers := [3], coords := [[0, 0, 0]], n_alpha := 2, n_beta := 1 }) :=
  C9_adjust_identity { atom_numbers := [3], coords := [[0, 0, 0]], n_alpha := 2, n_beta := 1 }
    (by decide) (by decide)

/-! ## C10: the default-multiplicity fallback cannot fail -/

/-- The fallback redistribution with multiplicity 1 for an even and 2 for an
odd electron count succeeds for every non-negative electron count. -/
theorem distribute_fallback_ok (n : Int) (h : 0 ≤ n) :
    ∃ a b, distribute_electrons n (if n % 2 = 0 then 1 else 2) = .ok (a, b) := by
  by_cases hpar : n % 2 = 0
  · rw [if_pos hpar]
    exact ⟨_, _, distribute_electrons_valid n 1 (by omega) h (by omega) (by omega)⟩
  · rw [if_neg hpar]
    exact ⟨_, _, distribute_electrons_valid n 2 (by omega) h (by omega) (by omega)⟩

/-- C10: in `adjust_electrons` with the multiplicity omitted and the
multiplicity change allowed, the fallback `distribute_electrons` call with
multiplicity 1 for an even and 2 for an odd target count succeeds for every
non-negative target, so such an `adjust_electrons` call never fails once its
target electron count is non-negative. -/
theorem C10_fallback_never_fails :
    (∀ n : Int, 0 ≤ n →
        ∃ a b, distribute_electrons n (if n % 2 = 0 then 1 else 2) = .ok (a, b)) ∧
    (∀ (s : System) (charge : Option Int),
        0 ≤ adjustTarget s charge →
        (s.adjust_electrons charge none true).1 = .ok ()) := by
  refine ⟨distribute_fallback_ok, ?_⟩
  intro s charge htar
  cases charge with
  | none =>
    simp only [adjustTarget, System.n_electrons] at htar
    simp only [System.adjust_electrons]
    cases hd : distribute_electrons s.n_electrons s.multiplicity with
    | ok p =>
      obtain ⟨a, b⟩ := p
      simp [hd]
    | error e =>
      obtain ⟨a, b, hf⟩ := distribute_fallback_ok s.n_electrons (by rw [System.n_electrons]; omega)
      simp only [hd]
      rw [if_neg (show ¬ (true = false) by simp), hf]
  | some c =>
    simp only [adjustTarget] at htar
    simp only [System.adjust_electrons, if_neg (show ¬ (s.atom_numbers.sum - c < 0) by omega)]
    cases hd : distribute_electrons (s.atom_numbers.sum - c) s.multiplicity with
    | ok p =>
      obtain ⟨a, b⟩ := p
      simp [hd]
    | error e =>
      obtain ⟨a, b, hf⟩ := distribute_fallback_ok (s.atom_numbers.sum - c) htar
      simp only [hd]
      rw [if_neg (show ¬ (true = false) by simp), hf]

/-- Witness for C10: removing an electron from neutral helium (target count
1) succeeds even though multiplicity 1 cannot be kept. -/
theorem C10_witness :
    (({ atom_numbers := [2], coords := [[0, 0, 0]], n_alpha := 1, n_beta := 1 : System
       }).adjust_electrons (some 1) none true).1 = .ok () :=
  C10_fallback_never_fails.2
    { atom_numbers := [2], coords := [[0, 0, 0]], n_alpha := 1, n_beta := 1 }
    (some 1) (by decide)

end Molsturm
